import Mathlib

/-!
# Verification of the `Math::MetropolisHastings` sampler of cosmopp

This development shallowly embeds the Metropolis-Hastings MCMC engine
(`mcmc.hpp`, namespace `Math`) and proves/refutes the specified properties.

Modelling conventions:
* C++ `double` values are modelled as real numbers (`ℝ`).
* The engine's random draws (the Gaussian proposal draws turned into proposed
  block values, and the uniform acceptance draws `rand()/RAND_MAX`) are
  supplied as explicit oracle streams, indexed by iteration and block.
* The chain output file is modelled as a list of rows carried in the state;
  the checkpoint ("resume") file is modelled as an `Option Checkpoint` value.
* The `check(...)` macro of `macros.hpp` (a file whose source is not part of
  this snapshot) is, following the specification's error taxonomy, modelled
  as a fatal rejection of the offending call (`Option`/`Except` failure).
* The external-proposal asymmetry correction is not exercised by any claim
  (all claims concern the built-in symmetric proposal path); the block update
  is therefore parameterised directly by the proposed block values.
-/

namespace MetropolisHastings

/-- Prior modes of `MetropolisHastings` (`enum PRIOR_MODE`), restricted to the
configured states `UNIFORM_PRIOR` and `GAUSSIAN_PRIOR` (an unconfigured
parameter is a fatal configuration error before the run). -/
inductive PriorMode where
  | uniform : PriorMode
  | gauss : PriorMode
deriving DecidableEq

/-- The default block partition built by the constructor:
`for(int i = 1; i <= nPar; ++i) blocks_.push_back(i);`, i.e. `[1, 2, ..., n]`
(boundaries are C++ `int`s, modelled as `ℤ`). -/
def defaultBlocks (n : ℕ) : List ℤ :=
  (List.range n).map (fun i : ℕ => (i : ℤ) + 1)

/-- `MetropolisHastings::specifyParameterBlocks`: accepts the partition when
the vector is nonempty and, for every index `i ≥ 1`,
`blocks[i] > blocks[i-1]` and `blocks[i] <= n_` (the checks performed by the
function; the first element is never inspected).  Rejection (`none`) models
the fatal `check` failure. -/
def specifyParameterBlocks (n : ℕ) (blocks : List ℤ) : Option (List ℤ) :=
  if blocks.isEmpty then none
  else if ∀ i ∈ List.range blocks.length,
      i = 0 ∨ (blocks.getD (i - 1) 0 < blocks.getD i 0 ∧ blocks.getD i 0 ≤ (n : ℤ)) then
    some blocks
  else none

noncomputable section

/-- The engine's per-parameter configuration together with the block
partition: fields `param1_`, `param2_`, `starting_`, `samplingWidth_`,
`accuracy_`, `priorMods_`, `externalPrior_`, `blocks_` of the
`MetropolisHastings` class. -/
structure Config (n : ℕ) where
  param1 : Fin n → ℝ
  param2 : Fin n → ℝ
  starting : Fin n → ℝ
  samplingWidth : Fin n → ℝ
  accuracy : Fin n → ℝ
  priorMode : Fin n → PriorMode
  externalPrior : Option ((Fin n → ℝ) → ℝ) := none
  blocks : List ℤ

/-- The engine's mutable sampler state: fields `current_`, `prev_`,
`paramSum_`, `paramSquaredSum_`, `corSum_`, `currentLike_`, `currentPrior_`,
`iteration_`, `maxChainLength_` of the class, plus the chain output file
(`(fileRoot).txt`, as the list of rows written by this engine) and the
per-block acceptance counters (`accepted` vector local to `run`). -/
structure State (n : ℕ) where
  current : Fin n → ℝ
  prev : Fin n → ℝ
  paramSum : Fin n → ℝ
  paramSquaredSum : Fin n → ℝ
  corSum : Fin n → ℝ
  currentLike : ℝ
  currentPrior : ℝ
  iteration : ℕ
  maxChainLength : ℕ
  chainFile : List (List ℝ)
  accepted : ℕ → ℕ

/-- `MetropolisHastings::uniformPrior`: `1/(max-min)` inside `[min,max]`,
`0` outside. -/
def uniformPrior (lo hi x : ℝ) : ℝ :=
  if lo ≤ x ∧ x ≤ hi then 1 / (hi - lo) else 0

/-- `MetropolisHastings::gaussPrior`: the normal pdf with the given mean and
sigma. -/
def gaussPrior (mean sigma x : ℝ) : ℝ :=
  (1 / (Real.sqrt (2 * Real.pi) * sigma)) *
    Real.exp (-(x - mean) * (x - mean) / (2 * sigma * sigma))

/-- `MetropolisHastings::calculatePrior`: the external prior when one is set,
otherwise the product over all parameters of the per-parameter built-in
density selected by `priorMods_`. -/
def calculatePrior {n : ℕ} (cfg : Config n) (v : Fin n → ℝ) : ℝ :=
  match cfg.externalPrior with
  | some f => f v
  | none =>
      ∏ i : Fin n,
        match cfg.priorMode i with
        | PriorMode.uniform => uniformPrior (cfg.param1 i) (cfg.param2 i) (v i)
        | PriorMode.gauss => gaussPrior (cfg.param1 i) (cfg.param2 i) (v i)

/-- The candidate full vector of one block update: the pre-proposal vector
with entries `j ∈ [blockBegin, blockEnd)` overwritten by the proposed block
values (`current_[j] = block[j - blockBegin]` in `run`).  `prop k` is the
proposed value at offset `k` into the block. -/
def candVec {n : ℕ} (s : State n) (prop : ℕ → ℝ) (blockBegin blockEnd : ℤ) :
    Fin n → ℝ :=
  fun j =>
    if blockBegin ≤ (j : ℤ) ∧ (j : ℤ) < blockEnd then prop ((j : ℤ) - blockBegin).toNat
    else s.current j

/-- The un-clamped acceptance ratio of `run` for the built-in (symmetric)
proposal: `p = newPrior / currentPrior_; p *= exp(-deltaLike / 2)` with
`deltaLike = newLike - oldLike`. -/
def acceptProbRaw {n : ℕ} (cfg : Config n) (like : (Fin n → ℝ) → ℝ)
    (s : State n) (cand : Fin n → ℝ) : ℝ :=
  calculatePrior cfg cand / s.currentPrior *
    Real.exp (-(like cand - s.currentLike) / 2)

/-- The acceptance probability actually compared against the uniform draw:
the raw ratio after the clamp `if(p > 1) p = 1;`. -/
def acceptProb {n : ℕ} (cfg : Config n) (like : (Fin n → ℝ) → ℝ)
    (s : State n) (cand : Fin n → ℝ) : ℝ :=
  if acceptProbRaw cfg like s cand > 1 then 1 else acceptProbRaw cfg like s cand

/-- One block update of `run` (lines inside `for(int i = 0; i < blocks_.size(); ++i)`):
overwrite the block with the proposed values, evaluate likelihood and prior,
then accept (`q <= p`: keep the candidate, commit `currentPrior_ = newPrior`,
`++accepted[i]`) or reject (restore `current_ = currentOld` and
`currentLike_ = oldLike`; the prior is untouched).  `u` is the uniform draw
`q = rand()/RAND_MAX`, `blockIdx` the index `i` of the block. -/
def blockStep {n : ℕ} (cfg : Config n) (like : (Fin n → ℝ) → ℝ)
    (prop : ℕ → ℝ) (u : ℝ) (blockBegin blockEnd : ℤ) (blockIdx : ℕ)
    (s : State n) : State n :=
  let cand := candVec s prop blockBegin blockEnd
  if u ≤ acceptProb cfg like s cand then
    { s with
      current := cand
      currentLike := like cand
      currentPrior := calculatePrior cfg cand
      accepted := Function.update s.accepted blockIdx (s.accepted blockIdx + 1) }
  else s

/-- The inner loop of one sweep: process the remaining block boundaries in
order, threading `blockBegin` (starts at `0`) and the block index `i`.
`props i` and `us i` are the proposal values and uniform draw for block `i`. -/
def sweepBlocks {n : ℕ} (cfg : Config n) (like : (Fin n → ℝ) → ℝ)
    (props : ℕ → ℕ → ℝ) (us : ℕ → ℝ) :
    List ℤ → ℤ → ℕ → State n → State n
  | [], _, _, s => s
  | blockEnd :: rest, blockBegin, i, s =>
      sweepBlocks cfg like props us rest blockEnd (i + 1)
        (blockStep cfg like (props i) (us i) blockBegin blockEnd i s)

/-- The row written by `MetropolisHastings::writeChainElement`:
`1   currentLike_   current_[0] ... current_[n-1]`. -/
def chainRow {n : ℕ} (s : State n) : List ℝ :=
  1 :: s.currentLike :: List.ofFn s.current

/-- `MetropolisHastings::update`: accumulate the running sums from `current_`
and `prev_`, then set `prev_ = current_`. -/
def updateStats {n : ℕ} (s : State n) : State n :=
  { s with
    paramSum := fun i => s.paramSum i + s.current i
    paramSquaredSum := fun i => s.paramSquaredSum i + s.current i * s.current i
    corSum := fun i => s.corSum i + s.current i * s.prev i
    prev := s.current }

/-- One iteration ("sweep") of the `while(!stop())` loop of `run`: all blocks
in block order, then `writeChainElement(); ++iteration_; update();`.
`props` and `us` are the randomness oracles indexed by iteration then block. -/
def sweep {n : ℕ} (cfg : Config n) (like : (Fin n → ℝ) → ℝ)
    (props : ℕ → ℕ → ℕ → ℝ) (us : ℕ → ℕ → ℝ) (s : State n) : State n :=
  let s1 := sweepBlocks cfg like (props s.iteration) (us s.iteration)
    cfg.blocks 0 0 s
  let s2 := { s1 with chainFile := s1.chainFile ++ [chainRow s1] }
  let s3 := { s2 with iteration := s2.iteration + 1 }
  updateStats s3

/-- The per-parameter quantity compared to `accuracy_[i]` in
`MetropolisHastings::stop`: the standard error of the mean
`stdev/sqrt(iteration)`, multiplied by `sqrt((1+cor)/(1-cor))` when the
lag-1 autocorrelation `cor` lies strictly between `-1` and `1`. -/
def stdMeanOf {n : ℕ} (s : State n) (i : Fin n) : ℝ :=
  let it : ℝ := (s.iteration : ℝ)
  let mean := s.paramSum i / it
  let meanSq := s.paramSquaredSum i / it
  let stdev := Real.sqrt (meanSq - mean * mean)
  let stdMean := stdev / Real.sqrt it
  let cor := (s.corSum i / it - mean * mean) / (stdev * stdev)
  if cor < 1 ∧ -1 < cor then stdMean * Real.sqrt ((1 + cor) / (1 - cor))
  else stdMean

/-- `MetropolisHastings::stop`: `false` before iteration 100; `true` at or
beyond the maximum chain length; otherwise `true` exactly when every
parameter's (possibly inflated) standard error is within its accuracy. -/
def stop {n : ℕ} (cfg : Config n) (s : State n) : Bool :=
  if s.iteration < 100 then false
  else if s.maxChainLength ≤ s.iteration then true
  else decide (∀ i : Fin n, stdMeanOf s i ≤ cfg.accuracy i)

lemma blockStep_iteration {n : ℕ} (cfg : Config n) (like : (Fin n → ℝ) → ℝ)
    (prop : ℕ → ℝ) (u : ℝ) (bb be : ℤ) (bi : ℕ) (s : State n) :
    (blockStep cfg like prop u bb be bi s).iteration = s.iteration := by
  simp only [blockStep]
  split <;> rfl

lemma blockStep_maxChainLength {n : ℕ} (cfg : Config n)
    (like : (Fin n → ℝ) → ℝ) (prop : ℕ → ℝ) (u : ℝ) (bb be : ℤ) (bi : ℕ)
    (s : State n) :
    (blockStep cfg like prop u bb be bi s).maxChainLength = s.maxChainLength := by
  simp only [blockStep]
  split <;> rfl

lemma blockStep_chainFile {n : ℕ} (cfg : Config n) (like : (Fin n → ℝ) → ℝ)
    (prop : ℕ → ℝ) (u : ℝ) (bb be : ℤ) (bi : ℕ) (s : State n) :
    (blockStep cfg like prop u bb be bi s).chainFile = s.chainFile := by
  simp only [blockStep]
  split <;> rfl

lemma sweepBlocks_iteration {n : ℕ} (cfg : Config n) (like : (Fin n → ℝ) → ℝ)
    (props : ℕ → ℕ → ℝ) (us : ℕ → ℝ) (blocks : List ℤ) (bb : ℤ) (i : ℕ)
    (s : State n) :
    (sweepBlocks cfg like props us blocks bb i s).iteration = s.iteration := by
  induction blocks generalizing bb i s with
  | nil => rfl
  | cons be rest ih =>
      rw [sweepBlocks, ih, blockStep_iteration]

lemma sweepBlocks_maxChainLength {n : ℕ} (cfg : Config n)
    (like : (Fin n → ℝ) → ℝ) (props : ℕ → ℕ → ℝ) (us : ℕ → ℝ)
    (blocks : List ℤ) (bb : ℤ) (i : ℕ) (s : State n) :
    (sweepBlocks cfg like props us blocks bb i s).maxChainLength
      = s.maxChainLength := by
  induction blocks generalizing bb i s with
  | nil => rfl
  | cons be rest ih =>
      rw [sweepBlocks, ih, blockStep_maxChainLength]

lemma sweepBlocks_chainFile {n : ℕ} (cfg : Config n) (like : (Fin n → ℝ) → ℝ)
    (props : ℕ → ℕ → ℝ) (us : ℕ → ℝ) (blocks : List ℤ) (bb : ℤ) (i : ℕ)
    (s : State n) :
    (sweepBlocks cfg like props us blocks bb i s).chainFile = s.chainFile := by
  induction blocks generalizing bb i s with
  | nil => rfl
  | cons be rest ih =>
      rw [sweepBlocks, ih, blockStep_chainFile]

lemma sweep_iteration {n : ℕ} (cfg : Config n) (like : (Fin n → ℝ) → ℝ)
    (props : ℕ → ℕ → ℕ → ℝ) (us : ℕ → ℕ → ℝ) (s : State n) :
    (sweep cfg like props us s).iteration = s.iteration + 1 := by
  unfold sweep updateStats
  simp [sweepBlocks_iteration]

lemma sweep_maxChainLength {n : ℕ} (cfg : Config n) (like : (Fin n → ℝ) → ℝ)
    (props : ℕ → ℕ → ℕ → ℝ) (us : ℕ → ℕ → ℝ) (s : State n) :
    (sweep cfg like props us s).maxChainLength = s.maxChainLength := by
  unfold sweep updateStats
  simp [sweepBlocks_maxChainLength]

lemma stop_false_of_lt_100 {n : ℕ} (cfg : Config n) (s : State n)
    (h : s.iteration < 100) : stop cfg s = false := by
  unfold stop
  simp [h]

lemma stop_true_of_cap {n : ℕ} (cfg : Config n) (s : State n)
    (h1 : 100 ≤ s.iteration) (h2 : s.maxChainLength ≤ s.iteration) :
    stop cfg s = true := by
  unfold stop
  simp [Nat.not_lt.mpr h1, h2]

lemma stop_mid_iff {n : ℕ} (cfg : Config n) (s : State n)
    (h1 : 100 ≤ s.iteration) (h2 : s.iteration < s.maxChainLength) :
    stop cfg s = true ↔ ∀ i : Fin n, stdMeanOf s i ≤ cfg.accuracy i := by
  unfold stop
  simp [Nat.not_lt.mpr h1, Nat.not_le.mpr h2]

lemma iteration_lt_of_not_stop {n : ℕ} (cfg : Config n) (s : State n)
    (h : ¬ stop cfg s = true) : s.iteration < max 100 s.maxChainLength := by
  by_contra hc
  rw [Nat.not_lt, Nat.max_le] at hc
  exact h (stop_true_of_cap cfg s hc.1 hc.2)

/-- The `while(!stop())` loop of `run`: repeatedly sweep until `stop()`
holds.  Terminates because each sweep increments `iteration_` and `stop`
is true once `iteration_` reaches both 100 and the maximum chain length. -/
def runLoop {n : ℕ} (cfg : Config n) (like : (Fin n → ℝ) → ℝ)
    (props : ℕ → ℕ → ℕ → ℝ) (us : ℕ → ℕ → ℝ) (s : State n) : State n :=
  if h : stop cfg s then s
  else runLoop cfg like props us (sweep cfg like props us s)
termination_by max 100 s.maxChainLength - s.iteration
decreasing_by
  have h1 := sweep_iteration cfg like props us s
  have h2 := sweep_maxChainLength cfg like props us s
  have h3 := iteration_lt_of_not_stop cfg s h
  omega

lemma runLoop_stop {n : ℕ} (cfg : Config n) (like : (Fin n → ℝ) → ℝ)
    (props : ℕ → ℕ → ℕ → ℝ) (us : ℕ → ℕ → ℝ) (s : State n) :
    stop cfg (runLoop cfg like props us s) = true := by
  induction s using runLoop.induct cfg like props us with
  | case1 s h =>
      rw [runLoop]
      simp [h]
  | case2 s h ih =>
      rw [runLoop]
      simpa [h] using ih

lemma runLoop_maxChainLength {n : ℕ} (cfg : Config n)
    (like : (Fin n → ℝ) → ℝ) (props : ℕ → ℕ → ℕ → ℝ) (us : ℕ → ℕ → ℝ)
    (s : State n) :
    (runLoop cfg like props us s).maxChainLength = s.maxChainLength := by
  induction s using runLoop.induct cfg like props us with
  | case1 s h =>
      rw [runLoop]
      simp [h]
  | case2 s h ih =>
      rw [runLoop]
      simp [h]
      rw [ih, sweep_maxChainLength]

lemma runLoop_iteration_le {n : ℕ} (cfg : Config n) (like : (Fin n → ℝ) → ℝ)
    (props : ℕ → ℕ → ℕ → ℝ) (us : ℕ → ℕ → ℝ) (s : State n) :
    (runLoop cfg like props us s).iteration
      ≤ max (max 100 s.maxChainLength) s.iteration := by
  induction s using runLoop.induct cfg like props us with
  | case1 s h =>
      rw [runLoop]
      simp [h]
  | case2 s h ih =>
      rw [runLoop]
      have hlt := iteration_lt_of_not_stop cfg s h
      have h1 := sweep_iteration cfg like props us s
      have h2 := sweep_maxChainLength cfg like props us s
      rw [h1, h2] at ih
      simp [h]
      omega

lemma stop_true_mid {n : ℕ} (cfg : Config n) (s : State n)
    (h : stop cfg s = true) (hlt : s.iteration < s.maxChainLength) :
    100 ≤ s.iteration ∧ ∀ i : Fin n, stdMeanOf s i ≤ cfg.accuracy i := by
  by_cases h100 : s.iteration < 100
  · rw [stop_false_of_lt_100 cfg s h100] at h
    exact absurd h (by simp)
  · refine ⟨by omega, ?_⟩
    rw [stop_mid_iff cfg s (by omega) hlt] at h
    exact h

lemma runLoop_iteration_small_cap {n : ℕ} (cfg : Config n)
    (like : (Fin n → ℝ) → ℝ) (props : ℕ → ℕ → ℕ → ℝ) (us : ℕ → ℕ → ℝ) :
    ∀ (k : ℕ) (s : State n), s.maxChainLength ≤ 100 → s.iteration + k = 100 →
      (runLoop cfg like props us s).iteration = 100 := by
  intro k
  induction k with
  | zero =>
      intro s h1 h2
      rw [runLoop]
      have hs : stop cfg s = true := stop_true_of_cap cfg s (by omega) (by omega)
      simp [hs]
      omega
  | succ k ih =>
      intro s h1 h2
      have hs : stop cfg s = false := stop_false_of_lt_100 cfg s (by omega)
      rw [runLoop]
      simp [hs]
      exact ih (sweep cfg like props us s)
        (by rw [sweep_maxChainLength]; exact h1)
        (by rw [sweep_iteration]; omega)

/-- The fixed-layout content of the resume file `(fileRoot)resume.dat`:
`maxChainLength_`, `iteration_`, `currentLike_`, `currentPrior_`, the four
parameter-length arrays, and the trailing integrity marker (`resumeCode_`). -/
structure Checkpoint (n : ℕ) where
  maxChainLength : ℕ
  iteration : ℕ
  currentLike : ℝ
  currentPrior : ℝ
  current : Fin n → ℝ
  prev : Fin n → ℝ
  paramSum : Fin n → ℝ
  paramSquaredSum : Fin n → ℝ
  corSum : Fin n → ℝ
  code : ℤ

/-- The engine's fixed integrity marker `resumeCode_ = 123456`. -/
def resumeCode : ℤ := 123456

/-- `MetropolisHastings::writeResumeInfo`: if the resume file can be opened,
overwrite it with the current state followed by the integrity marker;
otherwise silently return, leaving the previous file contents. -/
def writeResumeInfo {n : ℕ} (canOpen : Bool) (s : State n)
    (oldFile : Option (Checkpoint n)) : Option (Checkpoint n) :=
  if canOpen then
    some
      { maxChainLength := s.maxChainLength
        iteration := s.iteration
        currentLike := s.currentLike
        currentPrior := s.currentPrior
        current := s.current
        prev := s.prev
        paramSum := s.paramSum
        paramSquaredSum := s.paramSquaredSum
        corSum := s.corSum
        code := resumeCode }
  else oldFile

/-- `MetropolisHastings::readResumeInfo`: a missing file returns `false`
leaving the state untouched; an existing file has its scalars and arrays read
into the engine's fields unconditionally, and the function returns `true`
exactly when the trailing marker matches `resumeCode_` (on a mismatch the
corruption is logged and `false` is returned, with the fields clobbered —
the caller's fresh-start branch then reinitialises every one of them). -/
def readResumeInfo {n : ℕ} (file : Option (Checkpoint n)) (s : State n) :
    Bool × State n :=
  match file with
  | none => (false, s)
  | some cp =>
      let s1 : State n :=
        { s with
          maxChainLength := cp.maxChainLength
          iteration := cp.iteration
          currentLike := cp.currentLike
          currentPrior := cp.currentPrior
          current := cp.current
          prev := cp.prev
          paramSum := cp.paramSum
          paramSquaredSum := cp.paramSquaredSum
          corSum := cp.corSum }
      if cp.code = resumeCode then (true, s1) else (false, s1)

/-- The fresh-start state built by the else-branch of `run`: current vector
set to the starting values, likelihood and prior evaluated once on it,
`prev_ = current_`, `iteration_ = 0`, the three accumulators zeroed, the
chain file opened fresh (truncated), and the acceptance counters zeroed. -/
def freshState {n : ℕ} (cfg : Config n) (like : (Fin n → ℝ) → ℝ)
    (maxChainLength : ℕ) : State n :=
  { current := cfg.starting
    prev := cfg.starting
    paramSum := fun _ => 0
    paramSquaredSum := fun _ => 0
    corSum := fun _ => 0
    currentLike := like cfg.starting
    currentPrior := calculatePrior cfg cfg.starting
    iteration := 0
    maxChainLength := maxChainLength
    chainFile := []
    accepted := fun _ => 0 }

/-- The initialisation phase of `MetropolisHastings::run` (paramnames file,
resume attempt, state setup, chain file opening).  `canOpenFiles` models
whether the paramnames and chain output files can be opened (their failure
throws a `StandardException`; this is the only error exit).  `s` is the
engine state prior to the call (garbage on a first run; its `chainFile`
carries any rows already on disk).  Returns the initial state together with
`true` when the chain file was opened in append mode (successful resume) and
`false` on a fresh start. -/
def runInit {n : ℕ} (cfg : Config n) (like : (Fin n → ℝ) → ℝ)
    (canOpenFiles : Bool) (file : Option (Checkpoint n))
    (maxChainLength : ℕ) (s : State n) : Except String (State n × Bool) :=
  if canOpenFiles then
    let r := readResumeInfo file s
    if r.1 then Except.ok ({ r.2 with accepted := fun _ => 0 }, true)
    else Except.ok (freshState cfg like maxChainLength, false)
  else Except.error "Cannot write into paramnames file"

lemma iterate_sweep_iteration {n : ℕ} (cfg : Config n)
    (like : (Fin n → ℝ) → ℝ) (props : ℕ → ℕ → ℕ → ℝ) (us : ℕ → ℕ → ℝ)
    (M : ℕ) (s : State n) :
    ((sweep cfg like props us)^[M] s).iteration = s.iteration + M := by
  induction M generalizing s with
  | zero => simp
  | succ M ih =>
      rw [Function.iterate_succ_apply, ih, sweep_iteration]
      omega

/-- A two-valued constant likelihood on one parameter, used as the concrete
external likelihood of the witnesses. -/
def demoLike : (Fin 1 → ℝ) → ℝ := fun _ => 0

/-- A concrete proposal oracle (all proposed values `0`). -/
def demoProps : ℕ → ℕ → ℕ → ℝ := fun _ _ _ => 0

/-- A concrete uniform-draw oracle (all draws `0`). -/
def demoUs : ℕ → ℕ → ℝ := fun _ _ => 0

/-- A concrete one-parameter configuration: uniform prior on `[0,1]`,
starting at the midpoint, with the default-style widths, one block. -/
def demoCfg : Config 1 :=
  { param1 := fun _ => 0
    param2 := fun _ => 1
    starting := fun _ => 1 / 2
    samplingWidth := fun _ => 1 / 100
    accuracy := fun _ => 1 / 1000
    priorMode := fun _ => PriorMode.uniform
    blocks := [1] }

/-- The fresh-start state of `demoCfg` with maximum chain length 1. -/
def demoState : State 1 := freshState demoCfg demoLike 1

/-- A fresh demo state (iteration 0) with maximum chain length 200. -/
def stopStateLow : State 1 := freshState demoCfg demoLike 200

/-- The demo state at iteration 100 with maximum chain length 200. -/
def stopStateMid : State 1 :=
  { freshState demoCfg demoLike 200 with iteration := 100 }

/-- A concrete checkpoint record carrying the correct integrity marker. -/
def demoCheckpoint : Checkpoint 1 :=
  { maxChainLength := 5000
    iteration := 250
    currentLike := 3
    currentPrior := 1
    current := fun _ => 0
    prev := fun _ => 0
    paramSum := fun _ => 0
    paramSquaredSum := fun _ => 0
    corSum := fun _ => 0
    code := 123456 }

/-- The configuration whose starting point has zero prior density: uniform
prior on `[0,1]` with starting value `2` (outside the support), reachable
through `setParam(0, "x", 0, 1, 2)` since `setParam` never checks the
starting value against the range. -/
def zeroPriorCfg : Config 1 :=
  { param1 := fun _ => 0
    param2 := fun _ => 1
    starting := fun _ => 2
    samplingWidth := fun _ => 1 / 100
    accuracy := fun _ => 1 / 1000
    priorMode := fun _ => PriorMode.uniform
    blocks := [1] }

lemma zeroPriorCfg_prior : calculatePrior zeroPriorCfg zeroPriorCfg.starting = 0 := by
  unfold calculatePrior zeroPriorCfg
  simp [uniformPrior]

/-- C1: for every block update with the built-in (symmetric) proposal, the
acceptance probability compared against the uniform draw — the value
`acceptProb` used in the comparison `u ≤ p` of `blockStep` — equals
`min(1, (P_new / P_current) · exp(−(L_new − L_current)/2))` where `P` is the
prior value and `L` the stored likelihood value, and in particular `p ≤ 1`
holds at the moment of the draw comparison. -/
theorem acceptProb_eq_min_and_le_one {n : ℕ} (cfg : Config n)
    (like : (Fin n → ℝ) → ℝ) (s : State n) (cand : Fin n → ℝ) :
    acceptProb cfg like s cand
        = min 1 (calculatePrior cfg cand / s.currentPrior *
            Real.exp (-(like cand - s.currentLike) / 2)) ∧
    acceptProb cfg like s cand ≤ 1 := by
  unfold acceptProb acceptProbRaw
  constructor
  · split
    · next h => exact (min_eq_left (le_of_lt h)).symm
    · next h => exact (min_eq_right (not_lt.mp h)).symm
  · split
    · exact le_refl 1
    · next h => exact not_lt.mp h

/-- C2: in every block step, if the uniform draw `u` satisfies `u ≤ p` the
proposal is accepted — the current prior becomes `P_new`, the current
likelihood becomes `L_new`, the current vector keeps the candidate, and that
block's acceptance counter increases by one; otherwise the full pre-proposal
vector and the likelihood are restored exactly and the prior is unchanged. -/
theorem blockStep_accept_reject {n : ℕ} (cfg : Config n)
    (like : (Fin n → ℝ) → ℝ) (prop : ℕ → ℝ) (u : ℝ) (bb be : ℤ) (bi : ℕ)
    (s : State n) :
    ((blockStep cfg like prop u bb be bi s).currentPrior =
      if u ≤ acceptProb cfg like s (candVec s prop bb be)
      then calculatePrior cfg (candVec s prop bb be) else s.currentPrior) ∧
    ((blockStep cfg like prop u bb be bi s).currentLike =
      if u ≤ acceptProb cfg like s (candVec s prop bb be)
      then like (candVec s prop bb be) else s.currentLike) ∧
    ((blockStep cfg like prop u bb be bi s).current =
      if u ≤ acceptProb cfg like s (candVec s prop bb be)
      then candVec s prop bb be else s.current) ∧
    ((blockStep cfg like prop u bb be bi s).accepted =
      if u ≤ acceptProb cfg like s (candVec s prop bb be)
      then Function.update s.accepted bi (s.accepted bi + 1) else s.accepted) := by
  simp only [blockStep]
  split
  · next h => refine ⟨?_, ?_, ?_, ?_⟩ <;> simp [h]
  · next h => refine ⟨?_, ?_, ?_, ?_⟩ <;> simp [h]

/-- C3: the stop decision returns `false` whenever `iteration < 100`; for
`iteration ≥ 100` and below the maximum chain length it returns `true` iff
every parameter's autocorrelation-inflated standard error (`stdMeanOf`, built
from the running sums exactly as in the source) is at most its configured
accuracy. -/
theorem stop_rule_spec {n : ℕ} (cfg : Config n) (s : State n) :
    (s.iteration < 100 → stop cfg s = false) ∧
    (100 ≤ s.iteration → s.iteration < s.maxChainLength →
      (stop cfg s = true ↔ ∀ i : Fin n, stdMeanOf s i ≤ cfg.accuracy i)) :=
  ⟨stop_false_of_lt_100 cfg s, stop_mid_iff cfg s⟩

/-- Witness for C3 at concrete states: iteration 0 (below 100) and
iteration 100 with maximum chain length 200. -/
theorem stop_rule_spec_witness :
    stop demoCfg stopStateLow = false ∧
    (stop demoCfg stopStateMid = true ↔
      ∀ i : Fin 1, stdMeanOf stopStateMid i ≤ demoCfg.accuracy i) :=
  ⟨(stop_rule_spec demoCfg stopStateLow).1
      (by norm_num [stopStateLow, freshState]),
   (stop_rule_spec demoCfg stopStateMid).2
      (by norm_num [stopStateMid]) (by norm_num [stopStateMid, freshState])⟩

/-- Counterexample to C4 as stated: with `maxChainLength = 1 > 0` the
fresh-started run does not stop until iteration 100, so it terminates with
an iteration count strictly greater than `maxChainLength`. -/
theorem run_exceeds_small_maxChainLength :
    (runLoop demoCfg demoLike demoProps demoUs demoState).iteration = 100 ∧
    demoState.maxChainLength = 1 ∧
    ¬ (runLoop demoCfg demoLike demoProps demoUs demoState).iteration
        ≤ demoState.maxChainLength := by
  have h := runLoop_iteration_small_cap demoCfg demoLike demoProps demoUs 100
    demoState (by norm_num [demoState, freshState])
    (by norm_num [demoState, freshState])
  refine ⟨h, rfl, ?_⟩
  rw [h]
  norm_num [demoState, freshState]

/-- C4 (amended): a fresh-started run terminates with an iteration count at
most `max 100 maxChainLength`; when `maxChainLength ≥ 100` the count is at
most `maxChainLength`, and whenever the run ends strictly before
`maxChainLength` it is because the per-parameter accuracy criterion is met
(at an iteration ≥ 100). -/
theorem run_termination_bound {n : ℕ} (cfg : Config n)
    (like : (Fin n → ℝ) → ℝ) (props : ℕ → ℕ → ℕ → ℝ) (us : ℕ → ℕ → ℝ)
    (s : State n) (h0 : s.iteration = 0) :
    (runLoop cfg like props us s).iteration ≤ max 100 s.maxChainLength ∧
    (100 ≤ s.maxChainLength →
      (runLoop cfg like props us s).iteration ≤ s.maxChainLength) ∧
    ((runLoop cfg like props us s).iteration < s.maxChainLength →
      100 ≤ (runLoop cfg like props us s).iteration ∧
        ∀ i : Fin n, stdMeanOf (runLoop cfg like props us s) i ≤ cfg.accuracy i) := by
  have hle := runLoop_iteration_le cfg like props us s
  rw [h0] at hle
  have h1 : (runLoop cfg like props us s).iteration ≤ max 100 s.maxChainLength := by
    omega
  refine ⟨h1, fun h => by omega, fun hlt => ?_⟩
  have hs := runLoop_stop cfg like props us s
  have hm := runLoop_maxChainLength cfg like props us s
  exact stop_true_mid cfg _ hs (by rw [hm]; exact hlt)

/-- Witness for the amended C4 at the concrete fresh demo state. -/
theorem run_termination_bound_witness :
    (runLoop demoCfg demoLike demoProps demoUs demoState).iteration
        ≤ max 100 demoState.maxChainLength ∧
    (100 ≤ demoState.maxChainLength →
      (runLoop demoCfg demoLike demoProps demoUs demoState).iteration
        ≤ demoState.maxChainLength) ∧
    ((runLoop demoCfg demoLike demoProps demoUs demoState).iteration
        < demoState.maxChainLength →
      100 ≤ (runLoop demoCfg demoLike demoProps demoUs demoState).iteration ∧
        ∀ i : Fin 1,
          stdMeanOf (runLoop demoCfg demoLike demoProps demoUs demoState) i
            ≤ demoCfg.accuracy i) :=
  run_termination_bound demoCfg demoLike demoProps demoUs demoState rfl

/-- C5: checkpoint round trip — after a successful `writeResumeInfo`, a
`readResumeInfo` returns `true` and restores `maxChainLength`, `iteration`,
the likelihood and prior values, both parameter vectors and the three
running-statistics accumulators exactly; running `M` further sweeps from the
restored state therefore reaches iteration `N + M` when `N` sweeps had been
completed before the checkpoint. -/
theorem resume_roundtrip {n : ℕ} (cfg : Config n) (like : (Fin n → ℝ) → ℝ)
    (props : ℕ → ℕ → ℕ → ℝ) (us : ℕ → ℕ → ℝ) (s s2 : State n)
    (old : Option (Checkpoint n)) (M : ℕ) :
    (readResumeInfo (writeResumeInfo true s old) s2).1 = true ∧
    (readResumeInfo (writeResumeInfo true s old) s2).2.maxChainLength
        = s.maxChainLength ∧
    (readResumeInfo (writeResumeInfo true s old) s2).2.iteration = s.iteration ∧
    (readResumeInfo (writeResumeInfo true s old) s2).2.currentLike
        = s.currentLike ∧
    (readResumeInfo (writeResumeInfo true s old) s2).2.currentPrior
        = s.currentPrior ∧
    (readResumeInfo (writeResumeInfo true s old) s2).2.current = s.current ∧
    (readResumeInfo (writeResumeInfo true s old) s2).2.prev = s.prev ∧
    (readResumeInfo (writeResumeInfo true s old) s2).2.paramSum = s.paramSum ∧
    (readResumeInfo (writeResumeInfo true s old) s2).2.paramSquaredSum
        = s.paramSquaredSum ∧
    (readResumeInfo (writeResumeInfo true s old) s2).2.corSum = s.corSum ∧
    ((sweep cfg like props us)^[M]
        (readResumeInfo (writeResumeInfo true s old) s2).2).iteration
      = s.iteration + M := by
  have hr : readResumeInfo (writeResumeInfo true s old) s2
      = (true,
        { s2 with
          maxChainLength := s.maxChainLength
          iteration := s.iteration
          currentLike := s.currentLike
          currentPrior := s.currentPrior
          current := s.current
          prev := s.prev
          paramSum := s.paramSum
          paramSquaredSum := s.paramSquaredSum
          corSum := s.corSum }) := by
    rfl
  rw [hr, iterate_sweep_iteration]
  refine ⟨rfl, rfl, rfl, rfl, rfl, rfl, rfl, rfl, rfl, rfl, rfl⟩

/-- C6: when the checkpoint file is absent or its trailing marker differs
from the engine's constant, `readResumeInfo` returns `false` and `run`
proceeds with a fresh start (starting vector, likelihood and prior evaluated
once, iteration 0, zeroed accumulators, chain file opened fresh) without
raising any error. -/
theorem bad_checkpoint_fresh_start {n : ℕ} (cfg : Config n)
    (like : (Fin n → ℝ) → ℝ) (mcl : ℕ) (s : State n)
    (file : Option (Checkpoint n))
    (h : file = none ∨ ∃ cp, file = some cp ∧ cp.code ≠ resumeCode) :
    (readResumeInfo file s).1 = false ∧
    runInit cfg like true file mcl s
        = Except.ok (freshState cfg like mcl, false) ∧
    (freshState cfg like mcl).current = cfg.starting ∧
    (freshState cfg like mcl).currentLike = like cfg.starting ∧
    (freshState cfg like mcl).currentPrior = calculatePrior cfg cfg.starting ∧
    (freshState cfg like mcl).iteration = 0 ∧
    (freshState cfg like mcl).paramSum = (fun _ => 0) ∧
    (freshState cfg like mcl).paramSquaredSum = (fun _ => 0) ∧
    (freshState cfg like mcl).corSum = (fun _ => 0) ∧
    (freshState cfg like mcl).chainFile = [] := by
  have hread : (readResumeInfo file s).1 = false := by
    rcases h with h | ⟨cp, hcp, hcode⟩
    · rw [h]
      rfl
    · rw [hcp]
      unfold readResumeInfo
      simp [hcode]
  refine ⟨hread, ?_, rfl, rfl, rfl, rfl, rfl, rfl, rfl, rfl⟩
  unfold runInit
  simp [hread]

/-- Witness for C6 with an absent checkpoint file. -/
theorem bad_checkpoint_fresh_start_witness :
    (readResumeInfo (none : Option (Checkpoint 1)) demoState).1 = false ∧
    runInit demoCfg demoLike true none 50 demoState
        = Except.ok (freshState demoCfg demoLike 50, false) ∧
    (freshState demoCfg demoLike 50).current = demoCfg.starting ∧
    (freshState demoCfg demoLike 50).currentLike = demoLike demoCfg.starting ∧
    (freshState demoCfg demoLike 50).currentPrior
        = calculatePrior demoCfg demoCfg.starting ∧
    (freshState demoCfg demoLike 50).iteration = 0 ∧
    (freshState demoCfg demoLike 50).paramSum = (fun _ => 0) ∧
    (freshState demoCfg demoLike 50).paramSquaredSum = (fun _ => 0) ∧
    (freshState demoCfg demoLike 50).corSum = (fun _ => 0) ∧
    (freshState demoCfg demoLike 50).chainFile = [] :=
  bad_checkpoint_fresh_start demoCfg demoLike 50 demoState none (Or.inl rfl)

/-- Counterexample to C7 as stated: with a zero-density starting point the
run start raises no error at all — it returns the fresh state whose
`currentPrior` is `0`, against which the next acceptance ratio divides. -/
theorem zero_prior_no_error :
    runInit zeroPriorCfg demoLike true none 1000 demoState
        = Except.ok (freshState zeroPriorCfg demoLike 1000, false) ∧
    (freshState zeroPriorCfg demoLike 1000).currentPrior = 0 := by
  refine ⟨rfl, ?_⟩
  show calculatePrior zeroPriorCfg zeroPriorCfg.starting = 0
  exact zeroPriorCfg_prior

/-- C7 (amended): the engine performs no zero-prior check — when the
starting point has zero prior density, run start succeeds with no error and
the initial state simply carries `currentPrior = 0` (subsequent acceptance
ratios are formed against this zero denominator with no special handling). -/
theorem zero_prior_run_start {n : ℕ} (cfg : Config n)
    (like : (Fin n → ℝ) → ℝ) (mcl : ℕ) (s : State n)
    (h : calculatePrior cfg cfg.starting = 0) :
    runInit cfg like true none mcl s
        = Except.ok (freshState cfg like mcl, false) ∧
    (freshState cfg like mcl).currentPrior = 0 := by
  refine ⟨rfl, ?_⟩
  show calculatePrior cfg cfg.starting = 0
  exact h

/-- Witness for the amended C7 at the concrete zero-prior configuration. -/
theorem zero_prior_run_start_witness :
    runInit zeroPriorCfg demoLike true none 77 demoState
        = Except.ok (freshState zeroPriorCfg demoLike 77, false) ∧
    (freshState zeroPriorCfg demoLike 77).currentPrior = 0 :=
  zero_prior_run_start zeroPriorCfg demoLike 77 demoState zeroPriorCfg_prior

/-- C8: every completed sweep appends exactly one row to the chain file,
consisting of the repeat count 1, the stored likelihood value (the
`−2·ln(likelihood)` of the current point, by the external likelihood
convention) and the current parameter values, in iteration order. -/
theorem sweep_appends_one_row {n : ℕ} (cfg : Config n)
    (like : (Fin n → ℝ) → ℝ) (props : ℕ → ℕ → ℕ → ℝ) (us : ℕ → ℕ → ℝ)
    (s : State n) :
    (sweep cfg like props us s).chainFile
      = s.chainFile ++
          [1 :: (sweep cfg like props us s).currentLike ::
            List.ofFn (sweep cfg like props us s).current] := by
  simp only [sweep, updateStats, chainRow]
  rw [sweepBlocks_chainFile]

/-- Counterexample to C9 as stated: `specifyParameterBlocks` accepts the
partition `[1]` for a 2-parameter engine even though its last boundary is 1,
not 2 — the "last boundary equals N" half of the invariant is not checked. -/
theorem blocks_accepted_without_full_coverage :
    specifyParameterBlocks 2 [1] = some [1] ∧
    ([1] : List ℤ).getLast? = some 1 ∧ (1 : ℤ) ≠ 2 := by
  refine ⟨by decide, rfl, by decide⟩

lemma defaultBlocks_getD (n i : ℕ) (h : i < n) :
    (defaultBlocks n).getD i 0 = (i : ℤ) + 1 := by
  unfold defaultBlocks
  rw [List.getD_eq_getElem?_getD, List.getElem?_map, List.getElem?_range h]
  rfl

lemma defaultBlocks_getLast (n : ℕ) (h : 0 < n) :
    (defaultBlocks n).getLast? = some (n : ℤ) := by
  have hlen : (defaultBlocks n).length = n := by simp [defaultBlocks]
  rw [List.getLast?_eq_getElem?, hlen]
  unfold defaultBlocks
  rw [List.getElem?_map, List.getElem?_range (by omega)]
  simp only [Option.map]
  congr 1
  omega

/-- C9 (amended): a partition accepted by `specifyParameterBlocks` is
nonempty and, from the second boundary on, strictly increasing with every
checked boundary at most N — but the first boundary is never inspected and
the last boundary is not required to equal N; the constructor's default
partition `[1..N]` is strictly increasing with last boundary N. -/
theorem specifyParameterBlocks_spec (n : ℕ) (blocks accepted : List ℤ)
    (h : specifyParameterBlocks n blocks = some accepted) :
    accepted = blocks ∧ blocks ≠ [] ∧
    (∀ i, 1 ≤ i → i < blocks.length →
      blocks.getD (i - 1) 0 < blocks.getD i 0 ∧ blocks.getD i 0 ≤ (n : ℤ)) ∧
    (∀ i, i + 1 < n →
      (defaultBlocks n).getD i 0 < (defaultBlocks n).getD (i + 1) 0) ∧
    (0 < n → (defaultBlocks n).getLast? = some (n : ℤ)) := by
  unfold specifyParameterBlocks at h
  split at h
  · exact absurd h (by simp)
  · next hne =>
      split at h
      · next hall =>
          refine ⟨(Option.some_inj.mp h).symm, by simpa using hne, ?_, ?_,
            defaultBlocks_getLast n⟩
          · intro i h1 h2
            have := hall i (List.mem_range.mpr h2)
            rcases this with h0 | hgood
            · omega
            · exact hgood
          · intro i hi
            rw [defaultBlocks_getD n i (by omega),
              defaultBlocks_getD n (i + 1) hi]
            push_cast
            omega
      · exact absurd h (by simp)

/-- Witness for the amended C9 at the accepted partition `[1, 2]` with two
parameters. -/
theorem specifyParameterBlocks_spec_witness :
    ([1, 2] : List ℤ) = [1, 2] ∧ ([1, 2] : List ℤ) ≠ [] ∧
    (∀ i, 1 ≤ i → i < ([1, 2] : List ℤ).length →
      ([1, 2] : List ℤ).getD (i - 1) 0 < ([1, 2] : List ℤ).getD i 0 ∧
        ([1, 2] : List ℤ).getD i 0 ≤ (2 : ℤ)) ∧
    (∀ i, i + 1 < 2 →
      (defaultBlocks 2).getD i 0 < (defaultBlocks 2).getD (i + 1) 0) ∧
    (0 < 2 → (defaultBlocks 2).getLast? = some (2 : ℤ)) :=
  specifyParameterBlocks_spec 2 [1, 2] [1, 2] (by decide)

/-- C10: when a valid checkpoint is loaded at the start of `run`, the
`maxChainLength` argument is ignored — the stop rule uses the value read
from the checkpoint — while a fresh start uses the argument. -/
theorem resume_ignores_maxChainLength_arg {n : ℕ} (cfg : Config n)
    (like : (Fin n → ℝ) → ℝ) (cp : Checkpoint n) (mcl : ℕ) (s : State n)
    (h : cp.code = resumeCode) :
    runInit cfg like true (some cp) mcl s
        = Except.ok
          ({ s with
            maxChainLength := cp.maxChainLength
            iteration := cp.iteration
            currentLike := cp.currentLike
            currentPrior := cp.currentPrior
            current := cp.current
            prev := cp.prev
            paramSum := cp.paramSum
            paramSquaredSum := cp.paramSquaredSum
            corSum := cp.corSum
            accepted := fun _ => 0 }, true) ∧
    runInit cfg like true none mcl s
        = Except.ok (freshState cfg like mcl, false) ∧
    (freshState cfg like mcl).maxChainLength = mcl := by
  refine ⟨?_, rfl, rfl⟩
  unfold runInit readResumeInfo
  simp [h]

/-- Witness for C10 at a concrete valid checkpoint: the resumed state takes
its maximum chain length (5000) from the checkpoint, not from the argument
(7). -/
theorem resume_ignores_maxChainLength_arg_witness :
    runInit demoCfg demoLike true (some demoCheckpoint) 7 demoState
        = Except.ok
          ({ demoState with
            maxChainLength := demoCheckpoint.maxChainLength
            iteration := demoCheckpoint.iteration
            currentLike := demoCheckpoint.currentLike
            currentPrior := demoCheckpoint.currentPrior
            current := demoCheckpoint.current
            prev := demoCheckpoint.prev
            paramSum := demoCheckpoint.paramSum
            paramSquaredSum := demoCheckpoint.paramSquaredSum
            corSum := demoCheckpoint.corSum
            accepted := fun _ => 0 }, true) ∧
    runInit demoCfg demoLike true none 7 demoState
        = Except.ok (freshState demoCfg demoLike 7, false) ∧
    (freshState demoCfg demoLike 7).maxChainLength = 7 :=
  resume_ignores_maxChainLength_arg demoCfg demoLike demoCheckpoint 7 demoState rfl

end

end MetropolisHastings
